import Mathlib

set_option maxRecDepth 10000
set_option maxHeartbeats 1000000

/-!
Verification of the cloud-automation helpers in `src/convex/`
(`IAMAdmin.py`, `InstanceManagement.py`, `StorageBucket.py`).

The boto3 provider is modelled as an explicit environment of possibly
failing calls (`Except ClientError _`); each Python method becomes a pure
Lean function over that environment which returns the trace of provider
calls it issued together with its result.  Python runtime faults that the
source can raise besides provider errors (calling a non-callable object,
reading an unassigned local, a missing attribute, an OS error from `open`)
are modelled by the dedicated constructors of `PyErr`.
-/

namespace Convex

/-- A botocore `ClientError`: carries the provider error code and message. -/
structure ClientError where
  code : String
  msg : String
deriving Repr, DecidableEq

/-- The exceptions the embedded methods can let escape. -/
inductive PyErr where
  /-- a botocore `ClientError` re-raised by a handler -/
  | clientError (e : ClientError)
  /-- e.g. calling a `Logger` object as a function -/
  | typeError (msg : String)
  /-- reading a missing attribute, e.g. `self.s3resources3` -/
  | attributeError (attr : String)
  /-- reading a local variable before assignment -/
  | unboundLocal (varName : String)
  /-- an OS-level failure of `open`/`write` -/
  | osError (msg : String)
  /-- a `ValueError`, e.g. `json.loads` rejecting its input -/
  | valueError (msg : String)
deriving Repr, DecidableEq

/-! ## IAMAdmin (src/convex/IAMAdmin.py) -/

namespace IAMAdmin

/-- The IAM mutating calls `delete_role` issues, in the order the source
names them. -/
inductive IAMCall where
  /-- `role.detach_policy(PolicyArn=...)` -/
  | detachPolicy (roleName policyArn : String)
  /-- `profile.remove_role(RoleName=...)` -/
  | removeRoleFromProfile (profileName roleName : String)
  /-- `role_policy.delete()` for an inline policy -/
  | deleteInlinePolicy (roleName policyName : String)
  /-- `role.delete()` -/
  | deleteRole (roleName : String)
deriving Repr, DecidableEq

/-- The listings the `iam.Role` resource reports for a role:
`role.attached_policies.all()` (managed policy ARNs),
`role.instance_profiles.all()` (instance profile names) and
`role.policies.all()` (inline policy names). -/
structure RoleView where
  attachedPolicies : List String
  instanceProfiles : List String
  inlinePolicies : List String
deriving Repr, DecidableEq

/-- Run a list of provider calls in order, stopping at the first one the
provider rejects; returns the trace of calls actually issued and the
first error, if any. -/
def runCalls (provider : IAMCall → Except ClientError Unit) :
    List IAMCall → List IAMCall × Option ClientError
  | [] => ([], none)
  | c :: cs =>
    match provider c with
    | .error e => ([c], some e)
    | .ok () =>
      let (tr, r) := runCalls provider cs
      (c :: tr, r)

/-- The calls `delete_role` makes, in source order: detach every attached
managed policy, remove the role from every instance profile, delete every
inline policy, then delete the role. -/
def deleteRolePlan (view : RoleView) (roleName : String) : List IAMCall :=
  view.attachedPolicies.map (fun a => IAMCall.detachPolicy roleName a) ++
  view.instanceProfiles.map (fun p => IAMCall.removeRoleFromProfile p roleName) ++
  view.inlinePolicies.map (fun q => IAMCall.deleteInlinePolicy roleName q) ++
  [IAMCall.deleteRole roleName]

/-- Embedding of `IAMAdmin.delete_role`: issues the teardown calls in
order; on success returns `True`, on the first `ClientError` the handler
logs and re-raises it.  Returns the trace of calls issued and the
result. -/
def delete_role (provider : IAMCall → Except ClientError Unit)
    (view : RoleView) (roleName : String) :
    List IAMCall × Except ClientError Bool :=
  match runCalls provider (deleteRolePlan view roleName) with
  | (tr, none) => (tr, .ok true)
  | (tr, some e) => (tr, .error e)

/-- Embedding of `IAMAdmin.create_instance_profile`: on success of
`iam.create_instance_profile` returns the profile ARN; on `ClientError`
the handler only logs (the `raise error` is commented out), so the
function falls through and returns `None`. -/
def create_instance_profile (createProfile : String → Except ClientError String)
    (profile_name : String) : Option String :=
  match createProfile profile_name with
  | .ok arn => some arn
  | .error _ => none

/-- Embedding of `IAMAdmin.get_instance_profile`: loading
`self.iamresource.InstanceProfile(profile_name).arn` either yields the
ARN or raises `ClientError`; on error the handler only logs (the
`raise error` is commented out) and the function returns `None`. -/
def get_instance_profile (lookupArn : String → Except ClientError String)
    (profile_name : String) : Option String :=
  match lookupArn profile_name with
  | .ok arn => some arn
  | .error _ => none

/-- Embedding of `IAMAdmin.add_role_instance_profile`.  After a successful
`iam.add_role_to_instance_profile` the source executes
`self.LOGGER(" Added Role to IAM Instance profile: %s ", profile_arn)`,
which calls the `logging.Logger` object itself and raises `TypeError`
(a `Logger` object is not callable); that `TypeError` is not a
`ClientError`, so it escapes and `return profile_arn` is never reached.
When the provider call raises `ClientError`, the handler evaluates
`self.LOGGER.exception("Response : %s", instance_role_profile)` with
`instance_role_profile` still unassigned, raising `UnboundLocalError`. -/
def add_role_instance_profile
    (addRole : String → String → Except ClientError Unit)
    (profile_name profile_arn role_name : String) : Except PyErr String :=
  match addRole profile_name role_name with
  | .ok () => .error (.typeError "Logger object is not callable")
  | .error _ => .error (.unboundLocal "instance_role_profile")

end IAMAdmin

/-! ## InstanceManagement (src/convex/InstanceManagement.py) -/

namespace InstanceManagement

/-- The EC2 / filesystem environment `create_instance` talks to.
`createKeyPair` returns the `KeyMaterial` string, `runInstances` the ids
of the launched instances, `listInstances` the ids of every instance in
the account in enumeration order. -/
structure EC2Env where
  deleteKeyPair : String → Except ClientError Unit
  createKeyPair : String → Except ClientError String
  writeFile : String → String → Except String Unit
  runInstances : String → Except ClientError (List String)
  listInstances : Except ClientError (List String)

/-- The calls `create_instance` issues, in source order. -/
inductive EC2Call where
  /-- `ec2.delete_key_pair(KeyName=key_pair)` -/
  | deleteKeyPairCall (name : String)
  /-- `ec2.create_key_pair(KeyName=key_pair)` -/
  | createKeyPairCall (name : String)
  /-- `open(key_file, 'w').write(key_pair_out)` -/
  | writeKeyFile (path content : String)
  /-- `self.ec2.create_instances(... KeyName=key_pair)` -/
  | runInstancesCall (keyName : String)
  /-- iterating `self.ec2.instances.all()` -/
  | listInstancesCall
deriving Repr, DecidableEq

/-- Embedding of `InstanceManagement.create_instance`.  Step order follows
the source: delete the key pair, create a fresh one, write its
`KeyMaterial` to `key_file`, launch the instance, then scan the full
instance listing, keeping the id of the last instance enumerated.
Error behaviour follows the source exactly: a `ClientError` raised before
`instances` is assigned makes the handler's first statement
`self.LOGGER.exception(instances)` raise `UnboundLocalError`; an OS error
from the file write is not a `ClientError` and escapes uncaught; a
`ClientError` while iterating the listing (when `instances` is bound) is
logged and re-raised; an empty listing leaves `instance_id` unassigned,
so `return instance_id` raises `UnboundLocalError`. -/
def create_instance (env : EC2Env) (key_file key_pair : String) :
    List EC2Call × Except PyErr String :=
  match env.deleteKeyPair key_pair with
  | .error _ =>
      ([.deleteKeyPairCall key_pair], .error (.unboundLocal "instances"))
  | .ok () =>
    match env.createKeyPair key_pair with
    | .error _ =>
        ([.deleteKeyPairCall key_pair, .createKeyPairCall key_pair],
         .error (.unboundLocal "instances"))
    | .ok key_pair_out =>
      match env.writeFile key_file key_pair_out with
      | .error msg =>
          ([.deleteKeyPairCall key_pair, .createKeyPairCall key_pair,
            .writeKeyFile key_file key_pair_out],
           .error (.osError msg))
      | .ok () =>
        match env.runInstances key_pair with
        | .error _ =>
            ([.deleteKeyPairCall key_pair, .createKeyPairCall key_pair,
              .writeKeyFile key_file key_pair_out, .runInstancesCall key_pair],
             .error (.unboundLocal "instances"))
        | .ok _instances =>
          match env.listInstances with
          | .error e =>
              ([.deleteKeyPairCall key_pair, .createKeyPairCall key_pair,
                .writeKeyFile key_file key_pair_out, .runInstancesCall key_pair,
                .listInstancesCall],
               .error (.clientError e))
          | .ok ids =>
              ([.deleteKeyPairCall key_pair, .createKeyPairCall key_pair,
                .writeKeyFile key_file key_pair_out, .runInstancesCall key_pair,
                .listInstancesCall],
               match ids.getLast? with
               | some instance_id => .ok instance_id
               | none => .error (.unboundLocal "instance_id"))

end InstanceManagement

/-! ## A model of Python's `json` module

`put_policy` stores `json.dumps(policy)` and `get_policy` returns
`json.loads` of the stored text, so the round-trip claim needs an
executable model of the two library functions.  JSON values are modelled
with string keys and arbitrary-precision integer numbers (Python ints);
`dumps` produces the canonical compact rendering and `loads` is a
recursive-descent reader of JSON text. -/

namespace PyJson

mutual
/-- A JSON value as Python's `json` module handles it (numbers modelled
as arbitrary-precision integers). -/
inductive Json where
  | null
  | bool (b : Bool)
  | num (n : Int)
  | str (s : List Char)
  | arr (elems : JsonList)
  | obj (fields : JsonFields)

/-- A list of JSON values. -/
inductive JsonList where
  | nil
  | cons (hd : Json) (tl : JsonList)

/-- The fields of a JSON object, in insertion order. -/
inductive JsonFields where
  | nil
  | cons (key : List Char) (val : Json) (tl : JsonFields)
end

/-- The decimal digit character for `n < 10`. -/
def digitChar (n : Nat) : Char := Char.ofNat (48 + n)

/-- Decimal digits of `n`, most significant first. -/
def natDigits (n : Nat) : List Char :=
  if h : n < 10 then [digitChar n]
  else natDigits (n / 10) ++ [digitChar (n % 10)]
decreasing_by exact Nat.div_lt_self (by omega) (by omega)

/-- Decimal rendering of an integer. -/
def intDigits (n : Int) : List Char :=
  if n < 0 then '-' :: natDigits n.natAbs else natDigits n.toNat

/-- Lower-case hex digit (`0`–`9`, `a`–`f`). -/
def hexDigit (n : Nat) : Char :=
  if n < 10 then Char.ofNat (48 + n) else Char.ofNat (87 + n)

/-- The value of a hex digit character, if it is one. -/
def hexVal (c : Char) : Option Nat :=
  if 48 ≤ c.toNat ∧ c.toNat ≤ 57 then some (c.toNat - 48)
  else if 97 ≤ c.toNat ∧ c.toNat ≤ 102 then some (c.toNat - 87)
  else none

/-- `n` as exactly four hex digits (for `\uXXXX` escapes). -/
def printHex4 (n : Nat) : List Char :=
  [hexDigit (n / 4096 % 16), hexDigit (n / 256 % 16),
   hexDigit (n / 16 % 16), hexDigit (n % 16)]

/-- Encoding of one character inside a JSON string literal: `"` and `\`
get a backslash escape, control characters a `\uXXXX` escape, everything
else stands for itself. -/
def encChar (c : Char) : List Char :=
  if c = '"' then ['\\', '"']
  else if c = '\\' then ['\\', '\\']
  else if c.toNat < 32 then '\\' :: 'u' :: printHex4 c.toNat
  else [c]

/-- The characters of a string literal after the opening quote, closing
quote included. -/
def encChars : List Char → List Char
  | [] => ['"']
  | c :: cs => encChar c ++ encChars cs

/-- A JSON string literal. -/
def encStr (s : List Char) : List Char := '"' :: encChars s

mutual
/-- Model of `json.dumps` (canonical compact separators), as characters. -/
def printVal : Json → List Char
  | .null => "null".data
  | .bool true => "true".data
  | .bool false => "false".data
  | .num n => intDigits n
  | .str s => encStr s
  | .arr .nil => ['[', ']']
  | .arr (.cons j tl) => '[' :: (printVal j ++ printItemsRest tl)
  | .obj .nil => ['\x7b', '\x7d']
  | .obj (.cons k v tl) =>
      '\x7b' :: (encStr k ++ ':' :: (printVal v ++ printFieldsRest tl))

/-- The rendering of the remaining array items, closing bracket
included. -/
def printItemsRest : JsonList → List Char
  | .nil => [']']
  | .cons j tl => ',' :: (printVal j ++ printItemsRest tl)

/-- The rendering of the remaining object fields, closing brace
included. -/
def printFieldsRest : JsonFields → List Char
  | .nil => ['\x7d']
  | .cons k v tl => ',' :: (encStr k ++ ':' :: (printVal v ++ printFieldsRest tl))
end

mutual
/-- Fuel needed by the reader for a value. -/
def jsize : Json → Nat
  | .null => 1
  | .bool _ => 1
  | .num _ => 1
  | .str _ => 1
  | .arr xs => jlistSize xs + 1
  | .obj fs => jfieldsSize fs + 1

/-- Fuel needed for the remaining array items. -/
def jlistSize : JsonList → Nat
  | .nil => 0
  | .cons j tl => jsize j + jlistSize tl

/-- Fuel needed for the remaining object fields. -/
def jfieldsSize : JsonFields → Nat
  | .nil => 0
  | .cons _ v tl => jsize v + jfieldsSize tl + 1
end

/-- Greedily read decimal digits, folding them onto `acc`. -/
def parseDigits : List Char → Nat → Nat × List Char
  | [], acc => (acc, [])
  | c :: rest, acc =>
    if c.isDigit then parseDigits rest (10 * acc + (c.toNat - 48))
    else (acc, c :: rest)

/-- Read a natural number literal (at least one digit). -/
def parseNum : List Char → Option (Nat × List Char)
  | [] => none
  | c :: rest =>
    if c.isDigit then some (parseDigits (c :: rest) 0) else none

/-- Read the body of a string literal after the opening quote, returning
the decoded characters and the input after the closing quote. -/
def parseStr : List Char → Option (List Char × List Char)
  | [] => none
  | c :: rest =>
    if c = '"' then some ([], rest)
    else if c = '\\' then
      match rest with
      | '"' :: r => (parseStr r).map (fun p => ('"' :: p.1, p.2))
      | '\\' :: r => (parseStr r).map (fun p => ('\\' :: p.1, p.2))
      | 'u' :: h1 :: h2 :: h3 :: h4 :: r =>
        match hexVal h1, hexVal h2, hexVal h3, hexVal h4 with
        | some a, some b, some c2, some d =>
          (parseStr r).map
            (fun p => (Char.ofNat (4096 * a + 256 * b + 16 * c2 + d) :: p.1, p.2))
        | _, _, _, _ => none
      | _ => none
    else (parseStr rest).map (fun p => (c :: p.1, p.2))

mutual
/-- Model of `json.loads`, fuel-indexed: read one JSON value. -/
def parseVal : Nat → List Char → Option (Json × List Char)
  | 0, _ => none
  | fuel + 1, input =>
    match input with
    | [] => none
    | c :: rest =>
      if c = 'n' then
        match rest with
        | 'u' :: 'l' :: 'l' :: r => some (.null, r)
        | _ => none
      else if c = 't' then
        match rest with
        | 'r' :: 'u' :: 'e' :: r => some (.bool true, r)
        | _ => none
      else if c = 'f' then
        match rest with
        | 'a' :: 'l' :: 's' :: 'e' :: r => some (.bool false, r)
        | _ => none
      else if c = '"' then
        (parseStr rest).map (fun p => (.str p.1, p.2))
      else if c = '[' then
        match rest with
        | [] => none
        | c2 :: rest2 =>
          if c2 = ']' then some (.arr .nil, rest2)
          else
            match parseVal fuel (c2 :: rest2) with
            | some (j, rem) =>
              match parseItemsRest fuel rem with
              | some (tl, rem2) => some (.arr (.cons j tl), rem2)
              | none => none
            | none => none
      else if c = '\x7b' then
        match rest with
        | '\x7d' :: r => some (.obj .nil, r)
        | '"' :: r =>
          match parseStr r with
          | some (k, ':' :: rem) =>
            match parseVal fuel rem with
            | some (v, rem2) =>
              match parseFieldsRest fuel rem2 with
              | some (tl, rem3) => some (.obj (.cons k v tl), rem3)
              | none => none
            | none => none
          | _ => none
        | _ => none
      else if c = '-' then
        match parseNum rest with
        | some (n, r) => some (.num (-(n : Int)), r)
        | none => none
      else if c.isDigit then
        match parseNum (c :: rest) with
        | some (n, r) => some (.num (n : Int), r)
        | none => none
      else none

/-- Read the remaining array items after the first value: either `]`
ends the array or `,` introduces the next item. -/
def parseItemsRest : Nat → List Char → Option (JsonList × List Char)
  | 0, _ => none
  | fuel + 1, input =>
    match input with
    | ']' :: rest => some (.nil, rest)
    | ',' :: rest =>
      match parseVal fuel rest with
      | some (j, rem) =>
        match parseItemsRest fuel rem with
        | some (tl, rem2) => some (.cons j tl, rem2)
        | none => none
      | none => none
    | _ => none

/-- Read the remaining object fields after the first key/value pair. -/
def parseFieldsRest : Nat → List Char → Option (JsonFields × List Char)
  | 0, _ => none
  | fuel + 1, input =>
    match input with
    | '\x7d' :: rest => some (.nil, rest)
    | ',' :: '"' :: rest =>
      match parseStr rest with
      | some (k, ':' :: rem) =>
        match parseVal fuel rem with
        | some (v, rem2) =>
          match parseFieldsRest fuel rem2 with
          | some (tl, rem3) => some (.cons k v tl, rem3)
          | none => none
        | none => none
      | _ => none
    | _ => none
end

/-- Whether the input does not start with a decimal digit (the number
reader is greedy, so a printed number token is only recovered when the
following text starts with a non-digit). -/
def noDigitHead : List Char → Bool
  | [] => true
  | c :: _ => !c.isDigit

/-- `json.dumps`. -/
def dumps (j : Json) : String := String.mk (printVal j)

/-- `json.loads`: reads one value and requires the input to be fully
consumed. -/
def loads (s : String) : Option Json :=
  match parseVal (s.length + 1) s.data with
  | some (j, []) => some j
  | _ => none

end PyJson

/-! ## StorageBucket (src/convex/StorageBucket.py)

`uuid.uuid4()` is modelled as drawing a fresh 128-bit value `v`;
`str(uuid.uuid4())` is its canonical 36-character hyphenated hex form. -/

namespace StorageBucket

/-- Lower-case hex digit of `n % 16`-style values (`0`–`9`, `a`–`f`). -/
def hexDigit (n : Nat) : Char :=
  if n < 10 then Char.ofNat (48 + n) else Char.ofNat (87 + n)

/-- The value of a hex digit character, if it is one. -/
def hexVal (c : Char) : Option Nat :=
  if 48 ≤ c.toNat ∧ c.toNat ≤ 57 then some (c.toNat - 48)
  else if 97 ≤ c.toNat ∧ c.toNat ≤ 102 then some (c.toNat - 87)
  else none

/-- `v` written as exactly `k` hex digits, most significant first. -/
def toHexPad (v : Nat) : Nat → List Char
  | 0 => []
  | k + 1 => toHexPad (v / 16) k ++ [hexDigit (v % 16)]

/-- The character list of `str(uuid.UUID(int=v))`: 32 hex digits in
8-4-4-4-12 groups separated by hyphens (36 characters). -/
def uuidChars (v : Nat) : List Char :=
  let d := toHexPad v 32
  d.take 8 ++ '-' :: (d.drop 8).take 4 ++ '-' :: (d.drop 12).take 4 ++
    '-' :: (d.drop 16).take 4 ++ '-' :: d.drop 20

/-- `str(uuid.uuid4())` for the draw `v`. -/
def uuidStr (v : Nat) : String :=
  String.mk (uuidChars v)

/-- Embedding of `StorageBucket.create_bucket_name`:
`''.join([bucket_prefix, str(uuid.uuid4())])`, with the uuid draw made
explicit. -/
def create_bucket_name (pfx : String) (uuid : String) : String :=
  pfx ++ uuid

/-- The constructor state of a `StorageBucket` that the embedded methods
read: `self.bucketname` and `self.current_region`. -/
structure State where
  bucketname : String
  current_region : String
deriving Repr, DecidableEq

/-- Embedding of `StorageBucket.__init__`: the bucket name is fixed at
construction as `create_bucket_name("sth")` with a fresh uuid draw `v`;
the region comes from the boto3 session. -/
def init (v : Nat) (region : String) : State :=
  { bucketname := create_bucket_name "sth" (uuidStr v)
    current_region := region }

/-- The S3 request `create_bucket` issues. -/
inductive S3Req where
  /-- `s3resource.create_bucket(Bucket=..., CreateBucketConfiguration=
  \x7b'LocationConstraint': ...\x7d)` -/
  | createBucketReq (bucket locationConstraint : String)
deriving Repr, DecidableEq

/-- Embedding of `StorageBucket.create_bucket`: creates the bucket named
`self.bucketname` in `self.current_region` and returns the bucket handle
(modelled by its name).  On `ClientError` the handler logs; when the
error code is `IllegalLocationConstraintException` it then evaluates
`self.s3resources3.meta.client.meta.region_name` — but `__init__` defined
`self.s3resource`, not `self.s3resources3`, so the logging call raises
`AttributeError` and the original `ClientError` is never re-raised; for
every other code the original error is re-raised. -/
def create_bucket (api : String → String → Except ClientError Unit)
    (self : State) : List S3Req × Except PyErr String :=
  ([.createBucketReq self.bucketname self.current_region],
   match api self.bucketname self.current_region with
   | .ok () => .ok self.bucketname
   | .error e =>
     if e.code = "IllegalLocationConstraintException" then
       .error (.attributeError "s3resources3")
     else
       .error (.clientError e))

/-- The S3 bucket-policy sub-resources, modelled as an association list
from bucket name to the stored policy text (most recent put first). -/
abbrev PolicyStore := List (String × String)

/-- Embedding of `StorageBucket.put_policy`:
`Bucket(bucket_name).Policy().put(Policy=json.dumps(policy))` stores the
serialized policy text under the bucket's name. -/
def put_policy (store : PolicyStore) (bucket_name : String)
    (policy : PyJson.Json) : PolicyStore :=
  (bucket_name, PyJson.dumps policy) :: store

/-- Embedding of `StorageBucket.get_policy`: reads
`Bucket(bucket_name).Policy().policy` (a `ClientError` if the bucket has
no policy) and returns `json.loads` of it (a `ValueError` if the stored
text is not JSON). -/
def get_policy (store : PolicyStore) (bucket_name : String) :
    Except PyErr PyJson.Json :=
  match store.lookup bucket_name with
  | none => .error (.clientError
      { code := "NoSuchBucketPolicy", msg := "The bucket policy does not exist" })
  | some text =>
    match PyJson.loads text with
    | some j => .ok j
    | none => .error (.valueError "Expecting value")

end StorageBucket

end Convex

/-! ## Lemmas about the `json` model -/

namespace Convex.PyJson

theorem digitChar_isDigit (n : Nat) (h : n < 10) : (digitChar n).isDigit = true := by
  interval_cases n <;> decide

theorem digitChar_toNat (n : Nat) (h : n < 10) : (digitChar n).toNat - 48 = n := by
  interval_cases n <;> decide

theorem natDigits_head (n : Nat) :
    ∃ c t, natDigits n = c :: t ∧ c.isDigit = true := by
  induction n using Nat.strong_induction_on with
  | _ n ih =>
    by_cases h : n < 10
    · exact ⟨digitChar n, [], by rw [natDigits, dif_pos h], digitChar_isDigit n h⟩
    · obtain ⟨c, t, hct, hd⟩ := ih (n / 10) (Nat.div_lt_self (by omega) (by omega))
      refine ⟨c, t ++ [digitChar (n % 10)], ?_, hd⟩
      rw [natDigits, dif_neg h, hct]
      simp

theorem parseDigits_noDigit (l : List Char) (acc : Nat)
    (h : noDigitHead l = true) : parseDigits l acc = (acc, l) := by
  cases l with
  | nil => rfl
  | cons c t =>
    simp only [noDigitHead, Bool.not_eq_true'] at h
    simp [parseDigits, h]

theorem parseDigits_natDigits (n : Nat) : ∀ (acc : Nat) (rest : List Char),
    parseDigits (natDigits n ++ rest) acc =
      parseDigits rest (acc * 10 ^ (natDigits n).length + n) := by
  induction n using Nat.strong_induction_on with
  | _ n ih =>
    intro acc rest
    by_cases h : n < 10
    · rw [natDigits, dif_pos h]
      simp only [List.cons_append, List.nil_append, List.length_cons,
        List.length_nil, parseDigits, digitChar_isDigit n h, if_true,
        digitChar_toNat n h, pow_one]
      congr 1
      omega
    · rw [natDigits, dif_neg h, List.append_assoc,
        ih (n / 10) (Nat.div_lt_self (by omega) (by omega))]
      simp only [List.cons_append, List.nil_append, parseDigits,
        digitChar_isDigit (n % 10) (Nat.mod_lt n (by omega)), if_true,
        digitChar_toNat (n % 10) (Nat.mod_lt n (by omega)),
        List.length_append, List.length_cons, List.length_nil, pow_succ]
      congr 1
      rw [← Nat.mul_assoc]
      generalize acc * 10 ^ (natDigits (n / 10)).length = A
      omega

theorem parseNum_natDigits (n : Nat) (rest : List Char)
    (h : noDigitHead rest = true) :
    parseNum (natDigits n ++ rest) = some (n, rest) := by
  obtain ⟨c, t, hct, hd⟩ := natDigits_head n
  rw [hct]
  simp only [List.cons_append, parseNum, hd, if_true]
  rw [← List.cons_append, ← hct, parseDigits_natDigits, parseDigits_noDigit rest _ h]
  simp

end Convex.PyJson

namespace Convex.PyJson

theorem hexVal_hexDigit (m : Nat) (h : m < 16) : hexVal (hexDigit m) = some m := by
  interval_cases m <;> decide

theorem parseStr_encChars (s : List Char) : ∀ rest,
    parseStr (encChars s ++ rest) = some (s, rest) := by
  induction s with
  | nil =>
    intro rest
    rw [encChars, List.cons_append, List.nil_append, parseStr.eq_def]
    simp
  | cons c cs ih =>
    intro rest
    simp only [encChars, List.append_assoc]
    by_cases h1 : c = '"'
    · subst h1
      rw [encChar, if_pos rfl]
      simp only [List.cons_append, List.nil_append]
      rw [parseStr.eq_def]
      simp [ih]
    · by_cases h2 : c = '\\'
      · subst h2
        rw [encChar, if_neg (by decide), if_pos rfl]
        simp only [List.cons_append, List.nil_append]
        rw [parseStr.eq_def]
        simp [ih]
      · by_cases h3 : c.toNat < 32
        · rw [encChar, if_neg h1, if_neg h2, if_pos h3]
          simp only [printHex4, List.cons_append, List.nil_append]
          rw [parseStr.eq_def]
          simp only [reduceIte]
          rw [hexVal_hexDigit _ (Nat.mod_lt _ (by omega)),
              hexVal_hexDigit _ (Nat.mod_lt _ (by omega)),
              hexVal_hexDigit _ (Nat.mod_lt _ (by omega)),
              hexVal_hexDigit _ (Nat.mod_lt _ (by omega))]
          rw [ih]
          have hc : 4096 * (c.toNat / 4096 % 16) + 256 * (c.toNat / 256 % 16) +
              16 * (c.toNat / 16 % 16) + c.toNat % 16 = c.toNat := by omega
          simp [hc]
        · rw [encChar, if_neg h1, if_neg h2, if_neg h3]
          simp only [List.cons_append, List.nil_append]
          rw [parseStr.eq_def]
          simp [h1, h2, ih]

end Convex.PyJson

namespace Convex.PyJson

theorem jsize_pos (j : Json) : 1 ≤ jsize j := by
  cases j <;> simp [jsize] <;> omega

theorem ne_of_isDigit (c d : Char) (hd : c.isDigit = true)
    (h : d.isDigit = false) : c ≠ d := by
  intro he
  subst he
  rw [hd] at h
  cases h

theorem printVal_head (j : Json) : ∃ c t, printVal j = c :: t ∧ c ≠ ']' := by
  cases j with
  | null => exact ⟨'n', ['u', 'l', 'l'], by rw [printVal.eq_def], by decide⟩
  | bool b =>
    cases b with
    | true => exact ⟨'t', ['r', 'u', 'e'], by rw [printVal.eq_def], by decide⟩
    | false => exact ⟨'f', ['a', 'l', 's', 'e'], by rw [printVal.eq_def], by decide⟩
  | num n =>
    by_cases hn : n < 0
    · exact ⟨'-', natDigits n.natAbs,
        by rw [printVal.eq_def]; simp [intDigits, hn], by decide⟩
    · obtain ⟨c, t, hct, hd⟩ := natDigits_head n.toNat
      exact ⟨c, t, by rw [printVal.eq_def]; simp [intDigits, hn, hct],
        ne_of_isDigit c ']' hd (by decide)⟩
  | str s => exact ⟨'"', encChars s, by rw [printVal.eq_def]; simp [encStr], by decide⟩
  | arr xs =>
    cases xs with
    | nil => exact ⟨'[', [']'], by rw [printVal.eq_def], by decide⟩
    | cons j tl =>
      exact ⟨'[', printVal j ++ printItemsRest tl, by rw [printVal.eq_def], by decide⟩
  | obj fs =>
    cases fs with
    | nil => exact ⟨'\x7b', ['\x7d'], by rw [printVal.eq_def], by decide⟩
    | cons k v tl =>
      exact ⟨'\x7b', encStr k ++ ':' :: (printVal v ++ printFieldsRest tl),
        by rw [printVal.eq_def], by decide⟩

theorem noDigitHead_printItemsRest (tl : JsonList) (r : List Char) :
    noDigitHead (printItemsRest tl ++ r) = true := by
  cases tl <;> rw [printItemsRest.eq_def] <;> simp [noDigitHead]

theorem noDigitHead_printFieldsRest (tl : JsonFields) (r : List Char) :
    noDigitHead (printFieldsRest tl ++ r) = true := by
  cases tl <;> rw [printFieldsRest.eq_def] <;> simp [noDigitHead]

end Convex.PyJson

namespace Convex.PyJson

theorem printVal_null : printVal .null = ['n', 'u', 'l', 'l'] := by
  rw [printVal.eq_def]

theorem printVal_true : printVal (.bool true) = ['t', 'r', 'u', 'e'] := by
  rw [printVal.eq_def]

theorem printVal_false : printVal (.bool false) = ['f', 'a', 'l', 's', 'e'] := by
  rw [printVal.eq_def]

theorem printVal_num (n : Int) : printVal (.num n) = intDigits n := by
  rw [printVal.eq_def]

theorem printVal_str (s : List Char) : printVal (.str s) = encStr s := by
  rw [printVal.eq_def]

theorem printVal_arr_nil : printVal (.arr .nil) = ['[', ']'] := by
  rw [printVal.eq_def]

theorem printVal_arr_cons (j : Json) (tl : JsonList) :
    printVal (.arr (.cons j tl)) = '[' :: (printVal j ++ printItemsRest tl) := by
  rw [printVal.eq_def]

theorem printVal_obj_nil : printVal (.obj .nil) = ['\x7b', '\x7d'] := by
  rw [printVal.eq_def]

theorem printVal_obj_cons (k : List Char) (v : Json) (tl : JsonFields) :
    printVal (.obj (.cons k v tl)) =
      '\x7b' :: (encStr k ++ ':' :: (printVal v ++ printFieldsRest tl)) := by
  rw [printVal.eq_def]

theorem printItemsRest_nil : printItemsRest .nil = [']'] := by
  rw [printItemsRest.eq_def]

theorem printItemsRest_cons (j : Json) (tl : JsonList) :
    printItemsRest (.cons j tl) = ',' :: (printVal j ++ printItemsRest tl) := by
  rw [printItemsRest.eq_def]

theorem printFieldsRest_nil : printFieldsRest .nil = ['\x7d'] := by
  rw [printFieldsRest.eq_def]

theorem printFieldsRest_cons (k : List Char) (v : Json) (tl : JsonFields) :
    printFieldsRest (.cons k v tl) =
      ',' :: (encStr k ++ ':' :: (printVal v ++ printFieldsRest tl)) := by
  rw [printFieldsRest.eq_def]

end Convex.PyJson

namespace Convex.PyJson

mutual

theorem parseVal_printVal : ∀ (j : Json) (fuel : Nat) (rest : List Char),
    jsize j ≤ fuel → noDigitHead rest = true →
    parseVal fuel (printVal j ++ rest) = some (j, rest)
  | .null, fuel, rest, hf, _ => by
    cases fuel with
    | zero => exact absurd hf (by decide)
    | succ f =>
      rw [printVal_null]
      simp only [List.cons_append, List.nil_append]
      simp only [parseVal]
      simp
  | .bool true, fuel, rest, hf, _ => by
    cases fuel with
    | zero => exact absurd hf (by decide)
    | succ f =>
      rw [printVal_true]
      simp only [List.cons_append, List.nil_append]
      simp only [parseVal]
      simp
  | .bool false, fuel, rest, hf, _ => by
    cases fuel with
    | zero => exact absurd hf (by decide)
    | succ f =>
      rw [printVal_false]
      simp only [List.cons_append, List.nil_append]
      simp only [parseVal]
      simp
  | .num n, fuel, rest, hf, hr => by
    cases fuel with
    | zero => exact absurd hf (by simp [jsize])
    | succ f =>
      rw [printVal_num, intDigits]
      by_cases hn : n < 0
      · rw [if_pos hn]
        have hp : parseNum (natDigits n.natAbs ++ rest) = some (n.natAbs, rest) :=
          parseNum_natDigits _ _ hr
        simp only [List.cons_append]
        simp only [parseVal]
        simp [hp, abs_of_neg hn]
      · rw [if_neg hn]
        obtain ⟨c, t, hct, hd⟩ := natDigits_head n.toNat
        have hp : parseNum (natDigits n.toNat ++ rest) = some (n.toNat, rest) :=
          parseNum_natDigits _ _ hr
        have hc1 : c ≠ 'n' := ne_of_isDigit c 'n' hd (by decide)
        have hc2 : c ≠ 't' := ne_of_isDigit c 't' hd (by decide)
        have hc3 : c ≠ 'f' := ne_of_isDigit c 'f' hd (by decide)
        have hc4 : c ≠ '"' := ne_of_isDigit c '"' hd (by decide)
        have hc5 : c ≠ '[' := ne_of_isDigit c '[' hd (by decide)
        have hc6 : c ≠ '\x7b' := ne_of_isDigit c '\x7b' hd (by decide)
        have hc7 : c ≠ '-' := ne_of_isDigit c '-' hd (by decide)
        rw [hct] at hp ⊢
        simp only [List.cons_append] at hp ⊢
        simp only [parseVal]
        simp [hc1, hc2, hc3, hc4, hc5, hc6, hc7, hd, hp]
        omega
  | .str s, fuel, rest, hf, _ => by
    cases fuel with
    | zero => exact absurd hf (by simp [jsize])
    | succ f =>
      rw [printVal_str, encStr]
      simp only [List.cons_append]
      simp only [parseVal]
      simp [parseStr_encChars]
  | .arr .nil, fuel, rest, hf, _ => by
    cases fuel with
    | zero => exact absurd hf (by simp [jsize, jlistSize])
    | succ f =>
      rw [printVal_arr_nil]
      simp only [List.cons_append, List.nil_append]
      simp only [parseVal]
      simp
  | .arr (.cons j tl), fuel, rest, hf, hr => by
    cases fuel with
    | zero =>
      have := jsize_pos (.arr (.cons j tl))
      omega
    | succ f =>
      have hsz : jsize (Json.arr (JsonList.cons j tl)) = jsize j + jlistSize tl + 1 := by
        simp [jsize, jlistSize]
      have hjp := jsize_pos j
      obtain ⟨c2, t2, hct, hne⟩ := printVal_head j
      have h1 : parseVal f (printVal j ++ (printItemsRest tl ++ rest)) =
          some (j, printItemsRest tl ++ rest) :=
        parseVal_printVal j f _ (by omega) (noDigitHead_printItemsRest tl rest)
      have h2 : parseItemsRest f (printItemsRest tl ++ rest) = some (tl, rest) :=
        parseItemsRest_print tl f rest (by omega) hr
      rw [printVal_arr_cons]
      rw [hct] at h1 ⊢
      simp only [List.cons_append, List.append_assoc] at h1 ⊢
      simp only [parseVal]
      simp [hne, h1, h2]
  | .obj .nil, fuel, rest, hf, _ => by
    cases fuel with
    | zero => exact absurd hf (by simp [jsize, jfieldsSize])
    | succ f =>
      rw [printVal_obj_nil]
      simp only [List.cons_append, List.nil_append]
      simp only [parseVal]
      simp
  | .obj (.cons k v tl), fuel, rest, hf, hr => by
    cases fuel with
    | zero =>
      have := jsize_pos (.obj (.cons k v tl))
      omega
    | succ f =>
      have hsz : jsize (Json.obj (JsonFields.cons k v tl)) =
          jsize v + jfieldsSize tl + 2 := by
        simp [jsize, jfieldsSize]
      have hjp := jsize_pos v
      have h1 : parseVal f (printVal v ++ (printFieldsRest tl ++ rest)) =
          some (v, printFieldsRest tl ++ rest) :=
        parseVal_printVal v f _ (by omega) (noDigitHead_printFieldsRest tl rest)
      have h2 : parseFieldsRest f (printFieldsRest tl ++ rest) = some (tl, rest) :=
        parseFieldsRest_print tl f rest (by omega) hr
      have h3 : parseStr (encChars k ++ (':' :: (printVal v ++ (printFieldsRest tl ++ rest)))) =
          some (k, ':' :: (printVal v ++ (printFieldsRest tl ++ rest))) :=
        parseStr_encChars k _
      rw [printVal_obj_cons, encStr]
      simp only [List.cons_append, List.append_assoc] at h3 ⊢
      simp only [parseVal]
      simp [h3, h1, h2]

theorem parseItemsRest_print : ∀ (tl : JsonList) (fuel : Nat) (rest : List Char),
    jlistSize tl + 1 ≤ fuel → noDigitHead rest = true →
    parseItemsRest fuel (printItemsRest tl ++ rest) = some (tl, rest)
  | .nil, fuel, rest, hf, _ => by
    cases fuel with
    | zero => omega
    | succ f =>
      rw [printItemsRest_nil]
      simp only [List.cons_append, List.nil_append]
      simp only [parseItemsRest]
  | .cons j tl, fuel, rest, hf, hr => by
    cases fuel with
    | zero => omega
    | succ f =>
      have hsz : jlistSize (JsonList.cons j tl) = jsize j + jlistSize tl := by
        simp [jlistSize]
      have hjp := jsize_pos j
      have h1 : parseVal f (printVal j ++ (printItemsRest tl ++ rest)) =
          some (j, printItemsRest tl ++ rest) :=
        parseVal_printVal j f _ (by omega) (noDigitHead_printItemsRest tl rest)
      have h2 : parseItemsRest f (printItemsRest tl ++ rest) = some (tl, rest) :=
        parseItemsRest_print tl f rest (by omega) hr
      rw [printItemsRest_cons]
      simp only [List.cons_append, List.append_assoc] at h1 ⊢
      simp only [parseItemsRest]
      simp [h1, h2]

theorem parseFieldsRest_print : ∀ (tl : JsonFields) (fuel : Nat) (rest : List Char),
    jfieldsSize tl + 1 ≤ fuel → noDigitHead rest = true →
    parseFieldsRest fuel (printFieldsRest tl ++ rest) = some (tl, rest)
  | .nil, fuel, rest, hf, _ => by
    cases fuel with
    | zero => omega
    | succ f =>
      rw [printFieldsRest_nil]
      simp only [List.cons_append, List.nil_append]
      simp only [parseFieldsRest]
  | .cons k v tl, fuel, rest, hf, hr => by
    cases fuel with
    | zero => omega
    | succ f =>
      have hsz : jfieldsSize (JsonFields.cons k v tl) =
          jsize v + jfieldsSize tl + 1 := by
        simp [jfieldsSize]
      have hjp := jsize_pos v
      have h1 : parseVal f (printVal v ++ (printFieldsRest tl ++ rest)) =
          some (v, printFieldsRest tl ++ rest) :=
        parseVal_printVal v f _ (by omega) (noDigitHead_printFieldsRest tl rest)
      have h2 : parseFieldsRest f (printFieldsRest tl ++ rest) = some (tl, rest) :=
        parseFieldsRest_print tl f rest (by omega) hr
      have h3 : parseStr (encChars k ++ (':' :: (printVal v ++ (printFieldsRest tl ++ rest)))) =
          some (k, ':' :: (printVal v ++ (printFieldsRest tl ++ rest))) :=
        parseStr_encChars k _
      rw [printFieldsRest_cons, encStr]
      simp only [List.cons_append, List.append_assoc] at h3 ⊢
      simp only [parseFieldsRest]
      simp [h3, h1, h2]

end

end Convex.PyJson

namespace Convex.PyJson

mutual

theorem jsize_le_printVal : ∀ (j : Json), jsize j ≤ (printVal j).length
  | .null => by rw [printVal_null]; simp [jsize]
  | .bool true => by rw [printVal_true]; simp [jsize]
  | .bool false => by rw [printVal_false]; simp [jsize]
  | .num n => by
    rw [printVal_num, intDigits]
    by_cases hn : n < 0
    · rw [if_pos hn]
      simp [jsize]
    · rw [if_neg hn]
      obtain ⟨c, t, hct, _⟩ := natDigits_head n.toNat
      rw [hct]
      simp [jsize]
  | .str s => by
    rw [printVal_str, encStr]
    simp [jsize]
  | .arr .nil => by rw [printVal_arr_nil]; simp [jsize, jlistSize]
  | .arr (.cons j tl) => by
    have h1 := jsize_le_printVal j
    have h2 := jlistSize_le_printItemsRest tl
    rw [printVal_arr_cons]
    simp only [jsize, jlistSize, List.length_cons, List.length_append]
    omega
  | .obj .nil => by rw [printVal_obj_nil]; simp [jsize, jfieldsSize]
  | .obj (.cons k v tl) => by
    have h1 := jsize_le_printVal v
    have h2 := jfieldsSize_le_printFieldsRest tl
    rw [printVal_obj_cons]
    simp only [jsize, jfieldsSize, List.length_cons, List.length_append]
    omega

theorem jlistSize_le_printItemsRest :
    ∀ (tl : JsonList), jlistSize tl + 1 ≤ (printItemsRest tl).length
  | .nil => by rw [printItemsRest_nil]; simp [jlistSize]
  | .cons j tl => by
    have h1 := jsize_le_printVal j
    have h2 := jlistSize_le_printItemsRest tl
    rw [printItemsRest_cons]
    simp only [jlistSize, List.length_cons, List.length_append]
    omega

theorem jfieldsSize_le_printFieldsRest :
    ∀ (tl : JsonFields), jfieldsSize tl + 1 ≤ (printFieldsRest tl).length
  | .nil => by rw [printFieldsRest_nil]; simp [jfieldsSize]
  | .cons k v tl => by
    have h1 := jsize_le_printVal v
    have h2 := jfieldsSize_le_printFieldsRest tl
    rw [printFieldsRest_cons]
    simp only [jfieldsSize, List.length_cons, List.length_append]
    omega

end

theorem loads_dumps (j : Json) : loads (dumps j) = some j := by
  have hb := jsize_le_printVal j
  have h := parseVal_printVal j ((printVal j).length + 1) [] (by omega) rfl
  rw [List.append_nil] at h
  rw [loads]
  have hd : (dumps j).data = printVal j := rfl
  have hl : (dumps j).length = (printVal j).length := rfl
  rw [hd, hl, h]

end Convex.PyJson

/-! ## Lemmas about the IAM teardown runner -/

namespace Convex.IAMAdmin

theorem runCalls_all_ok (provider : IAMCall → Except ClientError Unit) :
    ∀ (cs : List IAMCall), (∀ c ∈ cs, provider c = .ok ()) →
      runCalls provider cs = (cs, none) := by
  intro cs
  induction cs with
  | nil => intro _; rfl
  | cons c cs ih =>
    intro h
    rw [runCalls, h c (by simp), ih (fun c' hc' => h c' (by simp [hc']))]

theorem runCalls_error (provider : IAMCall → Except ClientError Unit) :
    ∀ (cs tr : List IAMCall) (e : ClientError),
      runCalls provider cs = (tr, some e) →
      ∃ pre c post, cs = pre ++ c :: post ∧ (∀ c' ∈ pre, provider c' = .ok ()) ∧
        provider c = .error e ∧ tr = pre ++ [c] := by
  intro cs
  induction cs with
  | nil =>
    intro tr e h
    rw [runCalls] at h
    simp at h
  | cons c cs ih =>
    intro tr e h
    rw [runCalls] at h
    cases hc : provider c with
    | error e2 =>
      rw [hc] at h
      injection h with h1 h2
      injection h2 with h2
      refine ⟨[], c, cs, rfl, by simp, ?_, by simp [← h1]⟩
      rw [hc, h2]
    | ok u =>
      cases u
      rw [hc] at h
      rcases hrc : runCalls provider cs with ⟨tr2, r2⟩
      rw [hrc] at h
      injection h with h1 h2
      subst h2
      obtain ⟨pre, cx, post, hcs, hpre, hcx, htr⟩ := ih tr2 e hrc
      refine ⟨c :: pre, cx, post, by simp [hcs], ?_, hcx, ?_⟩
      · intro c' hc'
        rcases List.mem_cons.mp hc' with h' | h'
        · rw [h', hc]
        · exact hpre c' h'
      · rw [← h1, htr]
        simp

end Convex.IAMAdmin

/-! ## Lemmas about the uuid model -/

namespace Convex.StorageBucket

theorem toHexPad_length (v k : Nat) : (toHexPad v k).length = k := by
  induction k generalizing v with
  | zero => rfl
  | succ k ih => simp [toHexPad, ih]

theorem mem_toHexPad (v k : Nat) :
    ∀ c ∈ toHexPad v k, ∃ m, m < 16 ∧ c = hexDigit m := by
  induction k generalizing v with
  | zero => intro c hc; cases hc
  | succ k ih =>
    intro c hc
    rw [toHexPad] at hc
    rcases List.mem_append.mp hc with h | h
    · exact ih (v / 16) c h
    · rcases List.mem_singleton.mp h with rfl
      exact ⟨v % 16, Nat.mod_lt _ (by omega), rfl⟩

theorem uuidHexVal_hexDigit (m : Nat) (h : m < 16) : hexVal (hexDigit m) = some m := by
  interval_cases m <;> decide

theorem hexDigit_ne_hyphen (m : Nat) (h : m < 16) : hexDigit m ≠ '-' := by
  interval_cases m <;> decide

theorem hexDigit_inj (a b : Nat) (ha : a < 16) (hb : b < 16)
    (h : hexDigit a = hexDigit b) : a = b := by
  have := uuidHexVal_hexDigit a ha
  rw [h, uuidHexVal_hexDigit b hb] at this
  injection this with this
  omega

theorem toHexPad_inj : ∀ (k v1 v2 : Nat), v1 < 16 ^ k → v2 < 16 ^ k →
    toHexPad v1 k = toHexPad v2 k → v1 = v2 := by
  intro k
  induction k with
  | zero =>
    intro v1 v2 h1 h2 _
    simp only [pow_zero, Nat.lt_one_iff] at h1 h2
    omega
  | succ k ih =>
    intro v1 v2 h1 h2 h
    rw [toHexPad, toHexPad] at h
    obtain ⟨hinit, hlast⟩ := List.append_inj h
      (by rw [toHexPad_length, toHexPad_length])
    injection hlast with hd _
    have hdiv : v1 / 16 = v2 / 16 := by
      refine ih (v1 / 16) (v2 / 16) ?_ ?_ hinit
      · rw [Nat.div_lt_iff_lt_mul (by omega)]
        rw [pow_succ] at h1
        omega
      · rw [Nat.div_lt_iff_lt_mul (by omega)]
        rw [pow_succ] at h2
        omega
    have hmod : v1 % 16 = v2 % 16 :=
      hexDigit_inj _ _ (Nat.mod_lt _ (by omega)) (Nat.mod_lt _ (by omega)) hd
    omega

theorem filter_uuidChars (v : Nat) :
    (uuidChars v).filter (fun c => c != '-') = toHexPad v 32 := by
  have hall : ∀ c ∈ toHexPad v 32, (c != '-') = true := by
    intro c hc
    obtain ⟨m, hm, rfl⟩ := mem_toHexPad v 32 c hc
    simp [bne_iff_ne]
    exact hexDigit_ne_hyphen m hm
  have hfil : ∀ (l : List Char), l ⊆ toHexPad v 32 →
      l.filter (fun c => c != '-') = l := by
    intro l hl
    exact List.filter_eq_self.mpr (fun c hc => hall c (hl hc))
  rw [uuidChars]
  simp only [List.filter_append, List.filter_cons]
  norm_num
  rw [hfil _ (List.take_subset _ _), hfil _ (List.Subset.trans (List.take_subset _ _) (List.drop_subset _ _)),
      hfil _ (List.Subset.trans (List.take_subset _ _) (List.drop_subset _ _)),
      hfil _ (List.Subset.trans (List.take_subset _ _) (List.drop_subset _ _)),
      hfil _ (List.drop_subset _ _)]
  have e16 := List.take_append_drop 4 (List.drop 16 (toHexPad v 32))
  rw [List.drop_drop] at e16
  have e12 := List.take_append_drop 4 (List.drop 12 (toHexPad v 32))
  rw [List.drop_drop] at e12
  have e8 := List.take_append_drop 4 (List.drop 8 (toHexPad v 32))
  rw [List.drop_drop] at e8
  norm_num at e16 e12 e8
  rw [e16, e12, e8, List.take_append_drop]

end Convex.StorageBucket

namespace Convex.StorageBucket

theorem uuidStr_length (v : Nat) : (uuidStr v).length = 36 := by
  show (uuidChars v).length = 36
  rw [uuidChars]
  simp only [List.length_append, List.length_cons, List.length_take,
    List.length_drop, toHexPad_length]
  omega

theorem uuidStr_inj (v1 v2 : Nat) (h1 : v1 < 16 ^ 32) (h2 : v2 < 16 ^ 32)
    (h : uuidStr v1 = uuidStr v2) : v1 = v2 := by
  apply toHexPad_inj 32 _ _ h1 h2
  have hdata : uuidChars v1 = uuidChars v2 := congrArg String.data h
  rw [← filter_uuidChars v1, ← filter_uuidChars v2, hdata]

end Convex.StorageBucket

/-! ## The claims -/

namespace Convex

/-- C3, as stated, is false: `create_bucket_name` appends the 36-character
uuid text to the prefix without truncation, so a 28-character prefix
already yields a 64-character name, above the 63-character limit. -/
theorem create_bucket_name_length_counterexample :
    (StorageBucket.create_bucket_name "aaaaaaaaaaaaaaaaaaaaaaaaaaaa"
        (StorageBucket.uuidStr 0)).length = 64 ∧
    ¬ (StorageBucket.create_bucket_name "aaaaaaaaaaaaaaaaaaaaaaaaaaaa"
        (StorageBucket.uuidStr 0)).length ≤ 63 := by
  constructor
  · decide
  · decide

/-- C3 (amended): for every prefix of at most 27 characters,
`create_bucket_name` returns a name of length between 3 and 63 that
extends the prefix, and two calls drawing distinct uuid values (as
`uuid.uuid4()` guarantees for successive calls) return distinct names. -/
theorem create_bucket_name_spec (pfx : String) (v1 v2 : Nat)
    (hp : pfx.length ≤ 27) (hv1 : v1 < 16 ^ 32) (hv2 : v2 < 16 ^ 32)
    (hne : v1 ≠ v2) :
    3 ≤ (StorageBucket.create_bucket_name pfx (StorageBucket.uuidStr v1)).length
    ∧ (StorageBucket.create_bucket_name pfx (StorageBucket.uuidStr v1)).length ≤ 63
    ∧ (∃ s, StorageBucket.create_bucket_name pfx (StorageBucket.uuidStr v1) = pfx ++ s)
    ∧ StorageBucket.create_bucket_name pfx (StorageBucket.uuidStr v1) ≠
        StorageBucket.create_bucket_name pfx (StorageBucket.uuidStr v2) := by
  have hl1 := StorageBucket.uuidStr_length v1
  refine ⟨?_, ?_, ⟨StorageBucket.uuidStr v1, rfl⟩, ?_⟩
  · rw [StorageBucket.create_bucket_name, String.length_append]
    omega
  · rw [StorageBucket.create_bucket_name, String.length_append]
    omega
  · intro h
    rw [StorageBucket.create_bucket_name, StorageBucket.create_bucket_name] at h
    have hdata := congrArg String.data h
    rw [String.data_append, String.data_append] at hdata
    have := List.append_cancel_left hdata
    have hstr : StorageBucket.uuidStr v1 = StorageBucket.uuidStr v2 := by
      apply String.ext
      exact this
    exact hne (StorageBucket.uuidStr_inj v1 v2 hv1 hv2 hstr)

/-- Witness for C3 (amended) at the prefix `"sth"` the constructor uses
and the distinct uuid draws `0` and `1`. -/
theorem create_bucket_name_spec_witness :
    ("sth" : String).length ≤ 27 ∧ (0 : Nat) < 16 ^ 32 ∧ (1 : Nat) < 16 ^ 32 ∧
    (3 ≤ (StorageBucket.create_bucket_name "sth" (StorageBucket.uuidStr 0)).length
    ∧ (StorageBucket.create_bucket_name "sth" (StorageBucket.uuidStr 0)).length ≤ 63
    ∧ (∃ s, StorageBucket.create_bucket_name "sth" (StorageBucket.uuidStr 0) = "sth" ++ s)
    ∧ StorageBucket.create_bucket_name "sth" (StorageBucket.uuidStr 0) ≠
        StorageBucket.create_bucket_name "sth" (StorageBucket.uuidStr 1)) :=
  ⟨by decide, by norm_num, by norm_num,
   create_bucket_name_spec "sth" 0 1 (by decide) (by norm_num) (by norm_num) (by decide)⟩

/-- C6 is false of the code: when the provider rejects `create_bucket`
with code `IllegalLocationConstraintException`, the handler's remediation
logging reads `self.s3resources3`, an attribute `__init__` never defined
(it defined `self.s3resource`), so the method raises `AttributeError`
instead of re-raising the original `ClientError`. -/
theorem create_bucket_region_mismatch_attribute_error :
    (StorageBucket.create_bucket
        (fun _ _ => .error { code := "IllegalLocationConstraintException",
                             msg := "The unspecified location constraint is incompatible" })
        (StorageBucket.init 0 "eu-west-2")).2 =
      .error (.attributeError "s3resources3")
    ∧ (StorageBucket.create_bucket
        (fun _ _ => .error { code := "IllegalLocationConstraintException",
                             msg := "The unspecified location constraint is incompatible" })
        (StorageBucket.init 0 "eu-west-2")).2 ≠
      .error (.clientError { code := "IllegalLocationConstraintException",
                             msg := "The unspecified location constraint is incompatible" }) := by
  constructor
  · rfl
  · intro h
    exact PyErr.noConfusion (Except.error.inj h)

/-- C8: storing a policy with `put_policy` and reading it back with
`get_policy` for the same bucket name returns a JSON document equal to
the one stored (via the verified `json.dumps`/`json.loads` round-trip). -/
theorem put_get_policy_roundtrip (store : StorageBucket.PolicyStore)
    (bucket_name : String) (P : PyJson.Json) :
    StorageBucket.get_policy (StorageBucket.put_policy store bucket_name P)
      bucket_name = .ok P := by
  rw [StorageBucket.put_policy, StorageBucket.get_policy]
  simp [PyJson.loads_dumps]

/-- C10: the bucket name a `StorageBucket` operates on is fixed at
construction as `"sth"` followed by the uuid text of the construction-time
draw, and every `create_bucket` call on that state issues its request
against exactly that stored name (the method takes no name argument). -/
theorem bucket_name_fixed_at_construction (v : Nat) (region : String)
    (api api2 : String → String → Except ClientError Unit) :
    (StorageBucket.init v region).bucketname =
      StorageBucket.create_bucket_name "sth" (StorageBucket.uuidStr v)
    ∧ (StorageBucket.create_bucket api (StorageBucket.init v region)).1 =
        [.createBucketReq ((StorageBucket.init v region).bucketname) region]
    ∧ (StorageBucket.create_bucket api2 (StorageBucket.init v region)).1 =
        [.createBucketReq ((StorageBucket.init v region).bucketname) region] :=
  ⟨rfl, rfl, rfl⟩

end Convex

namespace Convex

/-- C1: for every role name, `delete_role` performs the ordered teardown —
detach every attached managed policy, remove the role from every instance
profile, delete every inline policy, then delete the role — and returns
`True` on success; if the provider rejects any call, the sequence stops at
that call (the calls before it all succeeded, nothing after it is issued)
and the provider error is re-raised. -/
theorem delete_role_ordered_teardown
    (provider : IAMAdmin.IAMCall → Except ClientError Unit)
    (view : IAMAdmin.RoleView) (roleName : String) :
    ((∀ c ∈ IAMAdmin.deleteRolePlan view roleName, provider c = .ok ()) →
      IAMAdmin.delete_role provider view roleName =
        (view.attachedPolicies.map (fun a => IAMAdmin.IAMCall.detachPolicy roleName a) ++
         view.instanceProfiles.map (fun p => IAMAdmin.IAMCall.removeRoleFromProfile p roleName) ++
         view.inlinePolicies.map (fun q => IAMAdmin.IAMCall.deleteInlinePolicy roleName q) ++
         [IAMAdmin.IAMCall.deleteRole roleName], Except.ok true))
    ∧ (∀ e, (IAMAdmin.delete_role provider view roleName).2 = .error e →
        ∃ pre c post,
          IAMAdmin.deleteRolePlan view roleName = pre ++ c :: post ∧
          (∀ c' ∈ pre, provider c' = .ok ()) ∧ provider c = .error e ∧
          (IAMAdmin.delete_role provider view roleName).1 = pre ++ [c]) := by
  constructor
  · intro h
    rw [IAMAdmin.delete_role, IAMAdmin.runCalls_all_ok provider _ h]
    rfl
  · intro e he
    rcases hrc : IAMAdmin.runCalls provider (IAMAdmin.deleteRolePlan view roleName)
      with ⟨tr, r⟩
    rw [IAMAdmin.delete_role, hrc] at he
    cases r with
    | none => simp at he
    | some e2 =>
      simp only [Except.error.injEq] at he
      subst he
      obtain ⟨pre, c, post, hplan, hpre, hc, htr⟩ :=
        IAMAdmin.runCalls_error provider _ tr e2 hrc
      refine ⟨pre, c, post, hplan, hpre, hc, ?_⟩
      rw [IAMAdmin.delete_role, hrc, ← htr]

/-- Witness for C1: a provider that accepts every call, on a role with two
attached managed policies, one instance profile and one inline policy. -/
theorem delete_role_ordered_teardown_witness :
    IAMAdmin.delete_role (fun _ => .ok ())
        { attachedPolicies := ["arn:aws:iam::aws:policy/P1", "arn:aws:iam::aws:policy/P2"],
          instanceProfiles := ["ec2-profile"],
          inlinePolicies := ["inline-policy"] } "svc-role" =
      ([.detachPolicy "svc-role" "arn:aws:iam::aws:policy/P1",
        .detachPolicy "svc-role" "arn:aws:iam::aws:policy/P2",
        .removeRoleFromProfile "ec2-profile" "svc-role",
        .deleteInlinePolicy "svc-role" "inline-policy",
        .deleteRole "svc-role"], Except.ok true) :=
  (delete_role_ordered_teardown (fun _ => .ok ())
    { attachedPolicies := ["arn:aws:iam::aws:policy/P1", "arn:aws:iam::aws:policy/P2"],
      instanceProfiles := ["ec2-profile"],
      inlinePolicies := ["inline-policy"] } "svc-role").1 (fun _ _ => rfl)

/-- C5: when the provider rejects `create_instance_profile` or the profile
load inside `get_instance_profile`, the `ClientError` is swallowed (the
`raise` is commented out) and the method returns `None` instead of a
profile ARN. -/
theorem instance_profile_failures_swallowed
    (createProfile lookupArn : String → Except ClientError String)
    (profile_name : String) (e1 e2 : ClientError) :
    (createProfile profile_name = .error e1 →
      IAMAdmin.create_instance_profile createProfile profile_name = none)
    ∧ (lookupArn profile_name = .error e2 →
      IAMAdmin.get_instance_profile lookupArn profile_name = none) := by
  constructor
  · intro h
    rw [IAMAdmin.create_instance_profile, h]
  · intro h
    rw [IAMAdmin.get_instance_profile, h]

/-- Witness for C5: both lookups fail with concrete provider errors and
both methods return `none`. -/
theorem instance_profile_failures_swallowed_witness :
    ((fun _ : String => (.error { code := "EntityAlreadyExists", msg := "exists" } :
        Except ClientError String)) "ec2-profile" =
      .error { code := "EntityAlreadyExists", msg := "exists" })
    ∧ IAMAdmin.create_instance_profile
        (fun _ => .error { code := "EntityAlreadyExists", msg := "exists" })
        "ec2-profile" = none
    ∧ IAMAdmin.get_instance_profile
        (fun _ => .error { code := "NoSuchEntity", msg := "missing" })
        "ec2-profile" = none :=
  ⟨rfl,
   (instance_profile_failures_swallowed
      (fun _ => .error { code := "EntityAlreadyExists", msg := "exists" })
      (fun _ => .error { code := "NoSuchEntity", msg := "missing" })
      "ec2-profile" { code := "EntityAlreadyExists", msg := "exists" }
      { code := "NoSuchEntity", msg := "missing" }).1 rfl,
   (instance_profile_failures_swallowed
      (fun _ => .error { code := "EntityAlreadyExists", msg := "exists" })
      (fun _ => .error { code := "NoSuchEntity", msg := "missing" })
      "ec2-profile" { code := "EntityAlreadyExists", msg := "exists" }
      { code := "NoSuchEntity", msg := "missing" }).2 rfl⟩

/-- C4 is false of the code: when the provider accepts
`add_role_to_instance_profile`, the next statement calls the `Logger`
object itself (`self.LOGGER(...)` instead of `self.LOGGER.debug(...)`),
raising `TypeError`, so the method never returns the profile ARN. -/
theorem add_role_instance_profile_type_error :
    IAMAdmin.add_role_instance_profile (fun _ _ => .ok ()) "ec2-profile"
        "arn:aws:iam::123456789012:instance-profile/ec2-profile" "svc-role" =
      .error (.typeError "Logger object is not callable")
    ∧ IAMAdmin.add_role_instance_profile (fun _ _ => .ok ()) "ec2-profile"
        "arn:aws:iam::123456789012:instance-profile/ec2-profile" "svc-role" ≠
      .ok "arn:aws:iam::123456789012:instance-profile/ec2-profile" := by
  constructor
  · rfl
  · intro h
    exact Except.noConfusion h

end Convex

namespace Convex

/-- C2: when the key-pair deletion and creation both succeed (in
particular when a key pair of that name already existed and was deleted),
`create_instance` issues exactly delete-key-pair, then create-key-pair,
then the write of the newly returned material to the key file, before any
launch or listing call; and the only content ever written to the key file
is the newly returned material. -/
theorem create_instance_key_rotation
    (env : InstanceManagement.EC2Env) (key_file key_pair m : String)
    (hdel : env.deleteKeyPair key_pair = .ok ())
    (hcreate : env.createKeyPair key_pair = .ok m) :
    ∃ tail,
      (InstanceManagement.create_instance env key_file key_pair).1 =
        [.deleteKeyPairCall key_pair, .createKeyPairCall key_pair,
         .writeKeyFile key_file m] ++ tail
      ∧ (∀ ev ∈ tail, ev = InstanceManagement.EC2Call.runInstancesCall key_pair ∨
          ev = InstanceManagement.EC2Call.listInstancesCall)
      ∧ (∀ content, InstanceManagement.EC2Call.writeKeyFile key_file content ∈
          (InstanceManagement.create_instance env key_file key_pair).1 →
          content = m) := by
  rw [InstanceManagement.create_instance]
  simp only [hdel, hcreate]
  cases hw : env.writeFile key_file m with
  | error msg =>
    refine ⟨[], by simp, by simp, ?_⟩
    intro content hc
    simp at hc
    exact hc
  | ok u =>
    cases u
    cases hr : env.runInstances key_pair with
    | error e =>
      refine ⟨[.runInstancesCall key_pair], by simp, by simp, ?_⟩
      intro content hc
      simp at hc
      exact hc
    | ok launched =>
      cases hl : env.listInstances with
      | error e =>
        refine ⟨[.runInstancesCall key_pair, .listInstancesCall], by simp, by simp, ?_⟩
        intro content hc
        simp at hc
        exact hc
      | ok ids =>
        refine ⟨[.runInstancesCall key_pair, .listInstancesCall], by simp, by simp, ?_⟩
        intro content hc
        simp at hc
        exact hc

/-- Witness for C2: an environment that accepts every call; the trace
starts with the rotation and the write of the fresh material. -/
theorem create_instance_key_rotation_witness :
    ∃ tail,
      (InstanceManagement.create_instance
        { deleteKeyPair := fun _ => .ok ()
          createKeyPair := fun _ => .ok "NEWKEYMATERIAL"
          writeFile := fun _ _ => .ok ()
          runInstances := fun _ => .ok ["i-0abc"]
          listInstances := .ok ["i-0abc"] } "key.pem" "convex-key").1 =
        [.deleteKeyPairCall "convex-key", .createKeyPairCall "convex-key",
         .writeKeyFile "key.pem" "NEWKEYMATERIAL"] ++ tail
      ∧ (∀ ev ∈ tail, ev = InstanceManagement.EC2Call.runInstancesCall "convex-key" ∨
          ev = InstanceManagement.EC2Call.listInstancesCall)
      ∧ (∀ content, InstanceManagement.EC2Call.writeKeyFile "key.pem" content ∈
          (InstanceManagement.create_instance
            { deleteKeyPair := fun _ => .ok ()
              createKeyPair := fun _ => .ok "NEWKEYMATERIAL"
              writeFile := fun _ _ => .ok ()
              runInstances := fun _ => .ok ["i-0abc"]
              listInstances := .ok ["i-0abc"] } "key.pem" "convex-key").1 →
          content = "NEWKEYMATERIAL") :=
  create_instance_key_rotation
    { deleteKeyPair := fun _ => .ok ()
      createKeyPair := fun _ => .ok "NEWKEYMATERIAL"
      writeFile := fun _ _ => .ok ()
      runInstances := fun _ => .ok ["i-0abc"]
      listInstances := .ok ["i-0abc"] } "key.pem" "convex-key" "NEWKEYMATERIAL" rfl rfl

/-- C7 is false of the code: when the provider rejects the very first step
(`delete_key_pair`) with a `ClientError`, the handler's first statement
`self.LOGGER.exception(instances)` reads the local `instances` before any
assignment, so the method raises `UnboundLocalError` and the original
provider error is not re-raised. -/
theorem create_instance_failure_masks_provider_error :
    InstanceManagement.create_instance
      { deleteKeyPair := fun _ => .error { code := "UnauthorizedOperation", msg := "denied" }
        createKeyPair := fun _ => .ok "KEYMATERIAL"
        writeFile := fun _ _ => .ok ()
        runInstances := fun _ => .ok ["i-0abc"]
        listInstances := .ok ["i-0abc"] } "key.pem" "convex-key" =
      ([.deleteKeyPairCall "convex-key"], .error (.unboundLocal "instances"))
    ∧ (InstanceManagement.create_instance
      { deleteKeyPair := fun _ => .error { code := "UnauthorizedOperation", msg := "denied" }
        createKeyPair := fun _ => .ok "KEYMATERIAL"
        writeFile := fun _ _ => .ok ()
        runInstances := fun _ => .ok ["i-0abc"]
        listInstances := .ok ["i-0abc"] } "key.pem" "convex-key").2 ≠
      .error (.clientError { code := "UnauthorizedOperation", msg := "denied" }) := by
  constructor
  · rfl
  · intro h
    exact PyErr.noConfusion (Except.error.inj h)

/-- C9: on a fully successful run, the id `create_instance` returns is the
id of the last instance of the account-wide listing, not the id in the
launch response; on a concrete listing that enumerates an older instance
after the launched one, the returned id differs from the launched id. -/
theorem create_instance_returns_last_listed
    (env : InstanceManagement.EC2Env) (key_file key_pair m : String)
    (launched ids : List String) (lastId : String)
    (h1 : env.deleteKeyPair key_pair = .ok ())
    (h2 : env.createKeyPair key_pair = .ok m)
    (h3 : env.writeFile key_file m = .ok ())
    (h4 : env.runInstances key_pair = .ok launched)
    (h5 : env.listInstances = .ok ids)
    (h6 : ids.getLast? = some lastId) :
    (InstanceManagement.create_instance env key_file key_pair).2 = .ok lastId
    ∧ (InstanceManagement.create_instance
        { deleteKeyPair := fun _ => .ok ()
          createKeyPair := fun _ => .ok "KEYMATERIAL"
          writeFile := fun _ _ => .ok ()
          runInstances := fun _ => .ok ["i-0launched"]
          listInstances := .ok ["i-0launched", "i-0older"] } "key.pem" "convex-key").2 =
      .ok "i-0older"
    ∧ "i-0older" ≠ "i-0launched" := by
  refine ⟨?_, rfl, by decide⟩
  rw [InstanceManagement.create_instance]
  simp only [h1, h2, h3, h4, h5, h6]

/-- Witness for C9: a successful run whose listing ends with an id other
than the launched one; the returned id is the listing's last element. -/
theorem create_instance_returns_last_listed_witness :
    (InstanceManagement.create_instance
      { deleteKeyPair := fun _ => .ok ()
        createKeyPair := fun _ => .ok "KEYMATERIAL"
        writeFile := fun _ _ => .ok ()
        runInstances := fun _ => .ok ["i-0launched"]
        listInstances := .ok ["i-0aaa", "i-0bbb"] } "key.pem" "convex-key").2 =
      .ok "i-0bbb" :=
  (create_instance_returns_last_listed
    { deleteKeyPair := fun _ => .ok ()
      createKeyPair := fun _ => .ok "KEYMATERIAL"
      writeFile := fun _ _ => .ok ()
      runInstances := fun _ => .ok ["i-0launched"]
      listInstances := .ok ["i-0aaa", "i-0bbb"] } "key.pem" "convex-key" "KEYMATERIAL"
    ["i-0launched"] ["i-0aaa", "i-0bbb"] "i-0bbb" rfl rfl rfl rfl rfl rfl).1

end Convex
